import Mathlib

set_option maxRecDepth 4000

/-!
Verification of `UnicodeConvAtlStd.hpp` (UTF-16/UTF-8 conversion helpers).

The header exports two functions, `ToUtf8` (UTF-16 CString to UTF-8
std::string) and `ToUtf16` (UTF-8 std::string to UTF-16 CString), an
exception type `UnicodeConversionException`, and a length-safety helper
`Details::SafeSizeToInt`.  Both converters are thin wrappers over the
Win32 transcoding primitives `WideCharToMultiByte` / `MultiByteToWideChar`
called with the strict-validation flags `WC_ERR_INVALID_CHARS` /
`MB_ERR_INVALID_CHARS`.

Embedding choices:
* UTF-16 code units and UTF-8 bytes are `Nat`s; buffers are `List Nat`.
* Exceptions become an `Except` result; `std::overflow_error` and
  `UnicodeConversionException` are the two constructors of `ConvError`.
* The Win32 primitives are not part of the repository; they are modelled
  from the spec's description of the platform transcoder (strict
  rejection of malformed sequences, two-phase size-then-convert
  protocol, failure reported as a zero return with a retrievable last
  error).  The converters are defined generically over a platform
  record, then instantiated with the strict transcoder model.
* The number of platform calls performed is returned alongside the
  result, so that "no platform call is made" claims are statable.
-/

namespace UnicodeConvAtlStd

/-- Direction tag of a conversion failure (enum
`UnicodeConversionException::ConversionType` in the source). -/
inductive ConversionType where
  | FromUtf16ToUtf8
  | FromUtf8ToUtf16
deriving DecidableEq, Repr

/-- Errors thrown by the converters: `UnicodeConversionException`
(carrying the Win32 last-error code, the direction and a message) and
`std::overflow_error` (thrown by `Details::SafeSizeToInt`). -/
inductive ConvError where
  | UnicodeConversionException (errorCode : Nat) (conversionType : ConversionType)
      (message : String)
  | OverflowError (message : String)
deriving DecidableEq, Repr

/-- Value of `std::numeric_limits<int>::max()` (32-bit `int`). -/
def kIntMax : Nat := 2147483647

/-- Message of the `std::overflow_error` thrown by `SafeSizeToInt`. -/
def msgOverflow : String := "size_t value is too big to fit into an int."

/-- Embedding of `Details::SafeSizeToInt`: a `size_t` (here `Nat`) is
checked against `INT_MAX` and returned unchanged, or an overflow error is
thrown. -/
def SafeSizeToInt (sizeValue : Nat) : Except ConvError Nat :=
  if sizeValue > kIntMax then
    .error (.OverflowError msgOverflow)
  else
    .ok sizeValue

/-- Discriminator: is an error a `UnicodeConversionException` (as opposed
to the overflow error)?  Used to state that the two error kinds are
distinct. -/
def isConversionError : ConvError → Bool
  | .UnicodeConversionException _ _ _ => true
  | .OverflowError _ => false

/-! Scalar-value and surrogate predicates (Unicode definitions used by
the platform transcoder model). -/

/-- Tests whether a UTF-16 code unit is a high (leading) surrogate. -/
def isHighSurrogate (u : Nat) : Bool :=
  decide (0xD800 ≤ u ∧ u ≤ 0xDBFF)

/-- Tests whether a UTF-16 code unit is a low (trailing) surrogate. -/
def isLowSurrogate (u : Nat) : Bool :=
  decide (0xDC00 ≤ u ∧ u ≤ 0xDFFF)

/-- A Unicode scalar value: a code point that is not a surrogate and is
at most U+10FFFF. -/
def IsScalar (c : Nat) : Prop :=
  c ≤ 0x10FFFF ∧ (c < 0xD800 ∨ 0xDFFF < c)

instance (c : Nat) : Decidable (IsScalar c) := by
  unfold IsScalar; infer_instance

/-- UTF-8 encoding of one scalar value (1 to 4 bytes). -/
def encodeUtf8Char (c : Nat) : List Nat :=
  if c < 0x80 then
    [c]
  else if c < 0x800 then
    [0xC0 + c / 0x40, 0x80 + c % 0x40]
  else if c < 0x10000 then
    [0xE0 + c / 0x1000, 0x80 + (c / 0x40) % 0x40, 0x80 + c % 0x40]
  else
    [0xF0 + c / 0x40000, 0x80 + (c / 0x1000) % 0x40, 0x80 + (c / 0x40) % 0x40,
      0x80 + c % 0x40]

/-- UTF-8 encoding of a sequence of scalar values. -/
def encodeUtf8 : List Nat → List Nat
  | [] => []
  | c :: cs => encodeUtf8Char c ++ encodeUtf8 cs

/-- UTF-16 encoding of one scalar value (one code unit, or a surrogate
pair for code points above U+FFFF). -/
def encodeUtf16Char (c : Nat) : List Nat :=
  if c < 0x10000 then
    [c]
  else
    [0xD800 + (c - 0x10000) / 0x400, 0xDC00 + (c - 0x10000) % 0x400]

/-- UTF-16 encoding of a sequence of scalar values. -/
def encodeUtf16 : List Nat → List Nat
  | [] => []
  | c :: cs => encodeUtf16Char c ++ encodeUtf16 cs

/-- Strict UTF-8 decoder: rejects lone continuation bytes, bad lead
bytes, truncated sequences, overlong forms, encoded surrogates and code
points above U+10FFFF.  Returns the sequence of decoded scalar values. -/
def decodeUtf8 : List Nat → Option (List Nat)
  | [] => some []
  | b :: rest =>
    if b < 0x80 then
      (decodeUtf8 rest).map (fun cs => b :: cs)
    else if b < 0xC2 then
      none
    else if b < 0xE0 then
      match rest with
      | [] => none
      | b1 :: rest1 =>
        if 0x80 ≤ b1 ∧ b1 ≤ 0xBF then
          (decodeUtf8 rest1).map (fun cs => ((b - 0xC0) * 0x40 + (b1 - 0x80)) :: cs)
        else none
    else if b < 0xF0 then
      match rest with
      | [] => none
      | b1 :: rest1 =>
        match rest1 with
        | [] => none
        | b2 :: rest2 =>
          if (0x80 ≤ b1 ∧ b1 ≤ 0xBF) ∧ (0x80 ≤ b2 ∧ b2 ≤ 0xBF) then
            if (b - 0xE0) * 0x1000 + (b1 - 0x80) * 0x40 + (b2 - 0x80) < 0x800 then none
            else if 0xD800 ≤ (b - 0xE0) * 0x1000 + (b1 - 0x80) * 0x40 + (b2 - 0x80)
                ∧ (b - 0xE0) * 0x1000 + (b1 - 0x80) * 0x40 + (b2 - 0x80) ≤ 0xDFFF then
              none
            else (decodeUtf8 rest2).map
              (fun cs => ((b - 0xE0) * 0x1000 + (b1 - 0x80) * 0x40 + (b2 - 0x80)) :: cs)
          else none
    else if b < 0xF5 then
      match rest with
      | [] => none
      | b1 :: rest1 =>
        match rest1 with
        | [] => none
        | b2 :: rest2 =>
          match rest2 with
          | [] => none
          | b3 :: rest3 =>
            if (0x80 ≤ b1 ∧ b1 ≤ 0xBF) ∧ (0x80 ≤ b2 ∧ b2 ≤ 0xBF)
                ∧ (0x80 ≤ b3 ∧ b3 ≤ 0xBF) then
              if (b - 0xF0) * 0x40000 + (b1 - 0x80) * 0x1000 + (b2 - 0x80) * 0x40
                  + (b3 - 0x80) < 0x10000 then none
              else if (b - 0xF0) * 0x40000 + (b1 - 0x80) * 0x1000 + (b2 - 0x80) * 0x40
                  + (b3 - 0x80) > 0x10FFFF then none
              else (decodeUtf8 rest3).map
                (fun cs => ((b - 0xF0) * 0x40000 + (b1 - 0x80) * 0x1000
                  + (b2 - 0x80) * 0x40 + (b3 - 0x80)) :: cs)
            else none
    else
      none

/-- Strict UTF-16 decoder: rejects unpaired surrogates.  Returns the
sequence of decoded scalar values. -/
def decodeUtf16 : List Nat → Option (List Nat)
  | [] => some []
  | u :: rest =>
    if isHighSurrogate u then
      match rest with
      | v :: rest2 =>
        if isLowSurrogate v then
          (decodeUtf16 rest2).map
            (fun cs => (0x10000 + (u - 0xD800) * 0x400 + (v - 0xDC00)) :: cs)
        else none
      | [] => none
    else if isLowSurrogate u then
      none
    else
      (decodeUtf16 rest).map (fun cs => u :: cs)

/-- Modelled from the spec: the platform transcoder's UTF-16 to UTF-8
direction with strict validation (`WideCharToMultiByte` with `CP_UTF8`
and `WC_ERR_INVALID_CHARS`, which is not repository code).  Either the
whole input is valid UTF-16 and is transcoded, or the conversion fails. -/
def utf16ToUtf8 (w : List Nat) : Option (List Nat) :=
  (decodeUtf16 w).map encodeUtf8

/-- Modelled from the spec: the platform transcoder's UTF-8 to UTF-16
direction with strict validation (`MultiByteToWideChar` with `CP_UTF8`
and `MB_ERR_INVALID_CHARS`, which is not repository code). -/
def utf8ToUtf16 (s : List Nat) : Option (List Nat) :=
  (decodeUtf8 s).map encodeUtf16

/-- Win32 error code `ERROR_NO_UNICODE_TRANSLATION`, reported by the
strict transcoder when it rejects malformed input. -/
def ERROR_NO_UNICODE_TRANSLATION : Nat := 1113

/-- Modelled from the spec: the interface of the host platform's
transcoding primitive, as the converters use it.  `wcmbSize s` is the
return value of the sizing call of `WideCharToMultiByte` (destination
size 0); `wcmbConv s dstSize` is the return value of the actual
conversion call together with the units it writes into the destination
buffer; `mbwcSize` / `mbwcConv` are the same for `MultiByteToWideChar`;
`lastError` is the value `GetLastError` reports after a failure.  A zero
return value signals failure. -/
structure Win32Platform where
  wcmbSize : List Nat → Nat
  wcmbConv : List Nat → Nat → Nat × List Nat
  mbwcSize : List Nat → Nat
  mbwcConv : List Nat → Nat → Nat × List Nat
  lastError : Nat

/-- Contents of a destination buffer of size `len`, pre-filled with
`pad`, after the platform wrote `written` into it. -/
def fillBuffer (written : List Nat) (len : Nat) (pad : Nat) : List Nat :=
  written.take len ++ List.replicate (len - (written.take len).length) pad

/-- Modelled from the spec: the strict Win32 transcoder.  The sizing
call reports the exact transcoded length (0 on malformed input); the
conversion call writes the transcoded sequence when the destination
buffer is large enough and fails otherwise. -/
def strictPlatform : Win32Platform where
  wcmbSize := fun w =>
    match utf16ToUtf8 w with
    | some b => b.length
    | none => 0
  wcmbConv := fun w dstSize =>
    match utf16ToUtf8 w with
    | some b => if b.length ≤ dstSize then (b.length, b) else (0, b.take dstSize)
    | none => (0, [])
  mbwcSize := fun s =>
    match utf8ToUtf16 s with
    | some u => u.length
    | none => 0
  mbwcConv := fun s dstSize =>
    match utf8ToUtf16 s with
    | some u => if u.length ≤ dstSize then (u.length, u) else (0, u.take dstSize)
    | none => (0, [])
  lastError := ERROR_NO_UNICODE_TRANSLATION

/-- Message of the first `UnicodeConversionException` in `ToUtf8`. -/
def msgSize8 : String :=
  "Cannot get result UTF-8 string length (WideCharToMultiByte failed)."

/-- Message of the second `UnicodeConversionException` in `ToUtf8`. -/
def msgConv8 : String :=
  "Cannot convert from UTF-16 to UTF-8 string (WideCharToMultiByte failed)."

/-- Message of the first `UnicodeConversionException` in `ToUtf16`. -/
def msgSize16 : String :=
  "Cannot get result UTF-16 string length (MultiByteToWideChar failed)."

/-- Message of the second `UnicodeConversionException` in `ToUtf16`. -/
def msgConv16 : String :=
  "Cannot convert from UTF-8 to UTF-16 string (MultiByteToWideChar failed)."

/-- Embedding of `ToUtf8` (UTF-16 CString to UTF-8 std::string),
generic in the platform.  Mirrors the source: empty-input shortcut, a
sizing call checked against zero, allocation of exactly the reported
length (`std::string utf8(utf8Length, ' ')`, pad byte 32), the
conversion call checked against zero, and the buffer returned as built.
The second component counts the platform calls performed. -/
def ToUtf8Gen (P : Win32Platform) (utf16 : List Nat) :
    Except ConvError (List Nat) × Nat :=
  if utf16.isEmpty then
    (.ok [], 0)
  else
    let utf8Length := P.wcmbSize utf16
    if utf8Length = 0 then
      (.error (.UnicodeConversionException P.lastError .FromUtf16ToUtf8 msgSize8), 1)
    else
      let res := P.wcmbConv utf16 utf8Length
      let utf8 := fillBuffer res.2 utf8Length 32
      if res.1 = 0 then
        (.error (.UnicodeConversionException P.lastError .FromUtf16ToUtf8 msgConv8), 2)
      else
        (.ok utf8, 2)

/-- Embedding of `ToUtf16` (UTF-8 std::string to UTF-16 CString),
generic in the platform.  Mirrors the source: empty-input shortcut,
`SafeSizeToInt` on the input length, a sizing call checked against zero,
allocation of exactly the reported length (`CString::GetBuffer`,
uninitialized memory modelled as pad 0), the conversion call checked
against zero, and `ReleaseBuffer(utf16Length)`.  The second component
counts the platform calls performed. -/
def ToUtf16Gen (P : Win32Platform) (utf8 : List Nat) :
    Except ConvError (List Nat) × Nat :=
  if utf8.isEmpty then
    (.ok [], 0)
  else
    match SafeSizeToInt utf8.length with
    | .error e => (.error e, 0)
    | .ok _utf8Length =>
      let utf16Length := P.mbwcSize utf8
      if utf16Length = 0 then
        (.error (.UnicodeConversionException P.lastError .FromUtf8ToUtf16 msgSize16), 1)
      else
        let res := P.mbwcConv utf8 utf16Length
        let utf16 := fillBuffer res.2 utf16Length 0
        if res.1 = 0 then
          (.error (.UnicodeConversionException P.lastError .FromUtf8ToUtf16 msgConv16), 2)
        else
          (.ok utf16, 2)

/-- Embedding of `ToUtf8` instantiated with the strict Win32 model. -/
def ToUtf8 (utf16 : List Nat) : Except ConvError (List Nat) × Nat :=
  ToUtf8Gen strictPlatform utf16

/-- Embedding of `ToUtf16` instantiated with the strict Win32 model. -/
def ToUtf16 (utf8 : List Nat) : Except ConvError (List Nat) × Nat :=
  ToUtf16Gen strictPlatform utf8

/-- Round trip starting from UTF-8: convert to UTF-16, then back. -/
def roundTrip8 (s : List Nat) : Except ConvError (List Nat) :=
  (ToUtf16 s).1.bind fun w => (ToUtf8 w).1

/-- Round trip starting from UTF-16: convert to UTF-8, then back. -/
def roundTrip16 (w : List Nat) : Except ConvError (List Nat) :=
  (ToUtf8 w).1.bind fun s => (ToUtf16 s).1

/-- A platform used to exercise the generic converters: its sizing call
reports 5 bytes (or 4 units), while its conversion call returns a
different nonzero count and writes fewer units than reported.  It shows
that the converters take the returned length from the sizing pass alone. -/
def mismatchPlatform : Win32Platform where
  wcmbSize := fun _ => 5
  wcmbConv := fun _ _ => (3, [1, 2])
  mbwcSize := fun _ => 4
  mbwcConv := fun _ _ => (7, [9])
  lastError := 0

/-- A valid UTF-8 byte sequence: the strict decoder accepts it. -/
def isValidUtf8 (s : List Nat) : Prop :=
  (decodeUtf8 s).isSome = true

/-- A valid UTF-16 code-unit sequence: every element is a 16-bit code
unit and the strict decoder accepts the sequence. -/
def isValidUtf16 (w : List Nat) : Prop :=
  (∀ u ∈ w, u < 0x10000) ∧ (decodeUtf16 w).isSome = true

/-- The input has, at some position, a high surrogate that is not
immediately followed by a low surrogate (an unpaired high surrogate). -/
def hasUnpairedHighSurrogate (w : List Nat) : Prop :=
  ∃ i, i < w.length ∧ isHighSurrogate (w.getD i 0) = true ∧
    (i + 1 = w.length ∨ isLowSurrogate (w.getD (i + 1) 0) = false)

instance (s : List Nat) : Decidable (isValidUtf8 s) := by
  unfold isValidUtf8
  infer_instance

instance (w : List Nat) : Decidable (isValidUtf16 w) := by
  unfold isValidUtf16
  infer_instance

/-! Helper lemmas about the destination buffer model. -/

theorem fillBuffer_length (written : List Nat) (len pad : Nat) :
    (fillBuffer written len pad).length = len := by
  simp only [fillBuffer, List.length_append, List.length_take, List.length_replicate]
  omega

theorem fillBuffer_exact (b : List Nat) (pad : Nat) : fillBuffer b b.length pad = b := by
  simp [fillBuffer]

/-! Equation lemmas for the strict UTF-8 decoder, one per branch. -/

theorem decodeUtf8_ascii (b : Nat) (rest : List Nat) (h1 : b < 0x80) :
    decodeUtf8 (b :: rest) = (decodeUtf8 rest).map (fun cs => b :: cs) := by
  conv_lhs => rw [decodeUtf8.eq_def]
  dsimp only
  rw [if_pos h1]

theorem decodeUtf8_badLead (b : Nat) (rest : List Nat) (h1 : ¬b < 0x80)
    (h2 : b < 0xC2) : decodeUtf8 (b :: rest) = none := by
  conv_lhs => rw [decodeUtf8.eq_def]
  dsimp only
  rw [if_neg h1, if_pos h2]

theorem decodeUtf8_two (b b1 : Nat) (rest : List Nat) (h1 : ¬b < 0x80)
    (h2 : ¬b < 0xC2) (h3 : b < 0xE0) (hc : 0x80 ≤ b1 ∧ b1 ≤ 0xBF) :
    decodeUtf8 (b :: b1 :: rest)
      = (decodeUtf8 rest).map (fun cs => ((b - 0xC0) * 0x40 + (b1 - 0x80)) :: cs) := by
  conv_lhs => rw [decodeUtf8.eq_def]
  dsimp only
  rw [if_neg h1, if_neg h2, if_pos h3, if_pos hc]

theorem decodeUtf8_two_badCont (b b1 : Nat) (rest : List Nat) (h1 : ¬b < 0x80)
    (h2 : ¬b < 0xC2) (h3 : b < 0xE0) (hc : ¬(0x80 ≤ b1 ∧ b1 ≤ 0xBF)) :
    decodeUtf8 (b :: b1 :: rest) = none := by
  conv_lhs => rw [decodeUtf8.eq_def]
  dsimp only
  rw [if_neg h1, if_neg h2, if_pos h3, if_neg hc]

theorem decodeUtf8_two_eof (b : Nat) (h1 : ¬b < 0x80) (h2 : ¬b < 0xC2)
    (h3 : b < 0xE0) : decodeUtf8 [b] = none := by
  conv_lhs => rw [decodeUtf8.eq_def]
  dsimp only
  rw [if_neg h1, if_neg h2, if_pos h3]

theorem decodeUtf8_three (b b1 b2 : Nat) (rest : List Nat) (h1 : ¬b < 0x80)
    (h2 : ¬b < 0xC2) (h3 : ¬b < 0xE0) (h4 : b < 0xF0)
    (hc : (0x80 ≤ b1 ∧ b1 ≤ 0xBF) ∧ (0x80 ≤ b2 ∧ b2 ≤ 0xBF))
    (hov : ¬(b - 0xE0) * 0x1000 + (b1 - 0x80) * 0x40 + (b2 - 0x80) < 0x800)
    (hsu : ¬(0xD800 ≤ (b - 0xE0) * 0x1000 + (b1 - 0x80) * 0x40 + (b2 - 0x80)
      ∧ (b - 0xE0) * 0x1000 + (b1 - 0x80) * 0x40 + (b2 - 0x80) ≤ 0xDFFF)) :
    decodeUtf8 (b :: b1 :: b2 :: rest)
      = (decodeUtf8 rest).map
          (fun cs => ((b - 0xE0) * 0x1000 + (b1 - 0x80) * 0x40 + (b2 - 0x80)) :: cs) := by
  conv_lhs => rw [decodeUtf8.eq_def]
  dsimp only
  rw [if_neg h1, if_neg h2, if_neg h3, if_pos h4, if_pos hc, if_neg hov, if_neg hsu]

theorem decodeUtf8_three_none (b b1 b2 : Nat) (rest : List Nat) (h1 : ¬b < 0x80)
    (h2 : ¬b < 0xC2) (h3 : ¬b < 0xE0) (h4 : b < 0xF0)
    (h : ¬((0x80 ≤ b1 ∧ b1 ≤ 0xBF) ∧ (0x80 ≤ b2 ∧ b2 ≤ 0xBF))
      ∨ (b - 0xE0) * 0x1000 + (b1 - 0x80) * 0x40 + (b2 - 0x80) < 0x800
      ∨ (0xD800 ≤ (b - 0xE0) * 0x1000 + (b1 - 0x80) * 0x40 + (b2 - 0x80)
        ∧ (b - 0xE0) * 0x1000 + (b1 - 0x80) * 0x40 + (b2 - 0x80) ≤ 0xDFFF)) :
    decodeUtf8 (b :: b1 :: b2 :: rest) = none := by
  conv_lhs => rw [decodeUtf8.eq_def]
  dsimp only
  rw [if_neg h1, if_neg h2, if_neg h3, if_pos h4]
  rcases h with h | h | h
  · rw [if_neg h]
  · by_cases hc : (0x80 ≤ b1 ∧ b1 ≤ 0xBF) ∧ (0x80 ≤ b2 ∧ b2 ≤ 0xBF)
    · rw [if_pos hc, if_pos h]
    · rw [if_neg hc]
  · by_cases hc : (0x80 ≤ b1 ∧ b1 ≤ 0xBF) ∧ (0x80 ≤ b2 ∧ b2 ≤ 0xBF)
    · rw [if_pos hc, if_neg (by omega), if_pos h]
    · rw [if_neg hc]

theorem decodeUtf8_three_eof1 (b : Nat) (h1 : ¬b < 0x80) (h2 : ¬b < 0xC2)
    (h3 : ¬b < 0xE0) (h4 : b < 0xF0) : decodeUtf8 [b] = none := by
  conv_lhs => rw [decodeUtf8.eq_def]
  dsimp only
  rw [if_neg h1, if_neg h2, if_neg h3, if_pos h4]

theorem decodeUtf8_three_eof2 (b b1 : Nat) (h1 : ¬b < 0x80) (h2 : ¬b < 0xC2)
    (h3 : ¬b < 0xE0) (h4 : b < 0xF0) : decodeUtf8 [b, b1] = none := by
  conv_lhs => rw [decodeUtf8.eq_def]
  dsimp only
  rw [if_neg h1, if_neg h2, if_neg h3, if_pos h4]

theorem decodeUtf8_four (b b1 b2 b3 : Nat) (rest : List Nat) (h1 : ¬b < 0x80)
    (h2 : ¬b < 0xC2) (h3 : ¬b < 0xE0) (h4 : ¬b < 0xF0) (h5 : b < 0xF5)
    (hc : (0x80 ≤ b1 ∧ b1 ≤ 0xBF) ∧ (0x80 ≤ b2 ∧ b2 ≤ 0xBF) ∧ (0x80 ≤ b3 ∧ b3 ≤ 0xBF))
    (hov : ¬(b - 0xF0) * 0x40000 + (b1 - 0x80) * 0x1000 + (b2 - 0x80) * 0x40
      + (b3 - 0x80) < 0x10000)
    (hbig : ¬(b - 0xF0) * 0x40000 + (b1 - 0x80) * 0x1000 + (b2 - 0x80) * 0x40
      + (b3 - 0x80) > 0x10FFFF) :
    decodeUtf8 (b :: b1 :: b2 :: b3 :: rest)
      = (decodeUtf8 rest).map
          (fun cs => ((b - 0xF0) * 0x40000 + (b1 - 0x80) * 0x1000 + (b2 - 0x80) * 0x40
            + (b3 - 0x80)) :: cs) := by
  conv_lhs => rw [decodeUtf8.eq_def]
  dsimp only
  rw [if_neg h1, if_neg h2, if_neg h3, if_neg h4, if_pos h5, if_pos hc, if_neg hov,
    if_neg hbig]

theorem decodeUtf8_four_none (b b1 b2 b3 : Nat) (rest : List Nat) (h1 : ¬b < 0x80)
    (h2 : ¬b < 0xC2) (h3 : ¬b < 0xE0) (h4 : ¬b < 0xF0) (h5 : b < 0xF5)
    (h : ¬((0x80 ≤ b1 ∧ b1 ≤ 0xBF) ∧ (0x80 ≤ b2 ∧ b2 ≤ 0xBF) ∧ (0x80 ≤ b3 ∧ b3 ≤ 0xBF))
      ∨ (b - 0xF0) * 0x40000 + (b1 - 0x80) * 0x1000 + (b2 - 0x80) * 0x40
        + (b3 - 0x80) < 0x10000
      ∨ (b - 0xF0) * 0x40000 + (b1 - 0x80) * 0x1000 + (b2 - 0x80) * 0x40
        + (b3 - 0x80) > 0x10FFFF) :
    decodeUtf8 (b :: b1 :: b2 :: b3 :: rest) = none := by
  conv_lhs => rw [decodeUtf8.eq_def]
  dsimp only
  rw [if_neg h1, if_neg h2, if_neg h3, if_neg h4, if_pos h5]
  rcases h with h | h | h
  · rw [if_neg h]
  · by_cases hc : (0x80 ≤ b1 ∧ b1 ≤ 0xBF) ∧ (0x80 ≤ b2 ∧ b2 ≤ 0xBF)
        ∧ (0x80 ≤ b3 ∧ b3 ≤ 0xBF)
    · rw [if_pos hc, if_pos h]
    · rw [if_neg hc]
  · by_cases hc : (0x80 ≤ b1 ∧ b1 ≤ 0xBF) ∧ (0x80 ≤ b2 ∧ b2 ≤ 0xBF)
        ∧ (0x80 ≤ b3 ∧ b3 ≤ 0xBF)
    · rw [if_pos hc, if_neg (by omega), if_pos h]
    · rw [if_neg hc]

theorem decodeUtf8_four_eof1 (b : Nat) (h1 : ¬b < 0x80) (h2 : ¬b < 0xC2)
    (h3 : ¬b < 0xE0) (h4 : ¬b < 0xF0) (h5 : b < 0xF5) : decodeUtf8 [b] = none := by
  conv_lhs => rw [decodeUtf8.eq_def]
  dsimp only
  rw [if_neg h1, if_neg h2, if_neg h3, if_neg h4, if_pos h5]

theorem decodeUtf8_four_eof2 (b b1 : Nat) (h1 : ¬b < 0x80) (h2 : ¬b < 0xC2)
    (h3 : ¬b < 0xE0) (h4 : ¬b < 0xF0) (h5 : b < 0xF5) : decodeUtf8 [b, b1] = none := by
  conv_lhs => rw [decodeUtf8.eq_def]
  dsimp only
  rw [if_neg h1, if_neg h2, if_neg h3, if_neg h4, if_pos h5]

theorem decodeUtf8_four_eof3 (b b1 b2 : Nat) (h1 : ¬b < 0x80) (h2 : ¬b < 0xC2)
    (h3 : ¬b < 0xE0) (h4 : ¬b < 0xF0) (h5 : b < 0xF5) :
    decodeUtf8 [b, b1, b2] = none := by
  conv_lhs => rw [decodeUtf8.eq_def]
  dsimp only
  rw [if_neg h1, if_neg h2, if_neg h3, if_neg h4, if_pos h5]

theorem decodeUtf8_highLead (b : Nat) (rest : List Nat) (h1 : ¬b < 0x80)
    (h2 : ¬b < 0xC2) (h3 : ¬b < 0xE0) (h4 : ¬b < 0xF0) (h5 : ¬b < 0xF5) :
    decodeUtf8 (b :: rest) = none := by
  conv_lhs => rw [decodeUtf8.eq_def]
  dsimp only
  rw [if_neg h1, if_neg h2, if_neg h3, if_neg h4, if_neg h5]

/-! Equation lemmas for the strict UTF-16 decoder, one per branch. -/

theorem decodeUtf16_bmp (u : Nat) (rest : List Nat) (h1 : isHighSurrogate u = false)
    (h2 : isLowSurrogate u = false) :
    decodeUtf16 (u :: rest) = (decodeUtf16 rest).map (fun cs => u :: cs) := by
  conv_lhs => rw [decodeUtf16.eq_def]
  dsimp only
  rw [if_neg (by simp [h1]), if_neg (by simp [h2])]

theorem decodeUtf16_loneLow (u : Nat) (rest : List Nat)
    (h1 : isHighSurrogate u = false) (h2 : isLowSurrogate u = true) :
    decodeUtf16 (u :: rest) = none := by
  conv_lhs => rw [decodeUtf16.eq_def]
  dsimp only
  rw [if_neg (by simp [h1]), if_pos h2]

theorem decodeUtf16_pair (u v : Nat) (rest : List Nat) (h1 : isHighSurrogate u = true)
    (h2 : isLowSurrogate v = true) :
    decodeUtf16 (u :: v :: rest)
      = (decodeUtf16 rest).map
          (fun cs => (0x10000 + (u - 0xD800) * 0x400 + (v - 0xDC00)) :: cs) := by
  conv_lhs => rw [decodeUtf16.eq_def]
  dsimp only
  rw [if_pos h1, if_pos h2]

theorem decodeUtf16_badLow (u v : Nat) (rest : List Nat) (h1 : isHighSurrogate u = true)
    (h2 : ¬isLowSurrogate v = true) :
    decodeUtf16 (u :: v :: rest) = none := by
  conv_lhs => rw [decodeUtf16.eq_def]
  dsimp only
  rw [if_pos h1, if_neg h2]

theorem decodeUtf16_highEof (u : Nat) (h1 : isHighSurrogate u = true) :
    decodeUtf16 [u] = none := by
  conv_lhs => rw [decodeUtf16.eq_def]
  dsimp only
  rw [if_pos h1]

/-! Helper lemmas about the codecs: encoding a scalar and then decoding
recovers the scalar, and a successful decode is inverted by encoding. -/

theorem decodeUtf8_encodeUtf8Char (c : Nat) (h : IsScalar c) (rest : List Nat) :
    decodeUtf8 (encodeUtf8Char c ++ rest) = (decodeUtf8 rest).map (fun cs => c :: cs) := by
  obtain ⟨hmax, hsur⟩ := h
  by_cases h1 : c < 0x80
  · rw [encodeUtf8Char, if_pos h1, List.singleton_append, decodeUtf8_ascii c rest h1]
  · by_cases h2 : c < 0x800
    · rw [encodeUtf8Char, if_neg h1, if_pos h2]
      simp only [List.cons_append, List.nil_append]
      rw [decodeUtf8_two _ _ _ (by omega) (by omega) (by omega) (by omega)]
      rw [show (0xC0 + c / 0x40 - 0xC0) * 0x40 + (0x80 + c % 0x40 - 0x80) = c by omega]
    · by_cases h3 : c < 0x10000
      · rw [encodeUtf8Char, if_neg h1, if_neg h2, if_pos h3]
        simp only [List.cons_append, List.nil_append]
        rw [decodeUtf8_three _ _ _ _ (by omega) (by omega) (by omega) (by omega)
          (by omega) (by omega) (by omega)]
        rw [show (0xE0 + c / 0x1000 - 0xE0) * 0x1000 + (0x80 + (c / 0x40) % 0x40 - 0x80) * 0x40
          + (0x80 + c % 0x40 - 0x80) = c by omega]
      · rw [encodeUtf8Char, if_neg h1, if_neg h2, if_neg h3]
        simp only [List.cons_append, List.nil_append]
        rw [decodeUtf8_four _ _ _ _ _ (by omega) (by omega) (by omega) (by omega)
          (by omega) (by omega) (by omega) (by omega)]
        rw [show (0xF0 + c / 0x40000 - 0xF0) * 0x40000 + (0x80 + (c / 0x1000) % 0x40 - 0x80) * 0x1000
          + (0x80 + (c / 0x40) % 0x40 - 0x80) * 0x40 + (0x80 + c % 0x40 - 0x80) = c by omega]

theorem decodeUtf16_encodeUtf16Char (c : Nat) (h : IsScalar c) (rest : List Nat) :
    decodeUtf16 (encodeUtf16Char c ++ rest)
      = (decodeUtf16 rest).map (fun cs => c :: cs) := by
  obtain ⟨hmax, hsur⟩ := h
  by_cases h1 : c < 0x10000
  · rw [encodeUtf16Char, if_pos h1, List.singleton_append]
    rw [decodeUtf16_bmp c rest
      (by simp only [isHighSurrogate, decide_eq_false_iff_not]; omega)
      (by simp only [isLowSurrogate, decide_eq_false_iff_not]; omega)]
  · rw [encodeUtf16Char, if_neg h1]
    simp only [List.cons_append, List.nil_append]
    rw [decodeUtf16_pair _ _ _
      (by simp only [isHighSurrogate, decide_eq_true_eq]; omega)
      (by simp only [isLowSurrogate, decide_eq_true_eq]; omega)]
    rw [show 0x10000 + (0xD800 + (c - 0x10000) / 0x400 - 0xD800) * 0x400
      + (0xDC00 + (c - 0x10000) % 0x400 - 0xDC00) = c by omega]

theorem decodeUtf8_inv (s : List Nat) : ∀ cs, decodeUtf8 s = some cs →
    (∀ c ∈ cs, IsScalar c) ∧ encodeUtf8 cs = s := by
  induction s using decodeUtf8.induct with
  | case1 =>
    intro cs h
    obtain rfl := Option.some.inj h
    exact ⟨by simp, rfl⟩
  | case2 b rest hb ih =>
    intro cs h
    rw [decodeUtf8_ascii b rest hb, Option.map_eq_some'] at h
    obtain ⟨cs0, hd, hcs⟩ := h
    subst hcs
    obtain ⟨hsc, he⟩ := ih cs0 hd
    refine ⟨?_, ?_⟩
    · intro x hx
      rcases List.mem_cons.mp hx with rfl | hx
      · exact ⟨by omega, Or.inl (by omega)⟩
      · exact hsc x hx
    · simp only [encodeUtf8]
      rw [he, encodeUtf8Char, if_pos hb, List.singleton_append]
  | case3 b rest h1 h2 =>
    intro cs h
    rw [decodeUtf8_badLead b rest h1 h2] at h
    cases h
  | case4 b h1 h2 h3 =>
    intro cs h
    rw [decodeUtf8_two_eof b h1 h2 h3] at h
    cases h
  | case5 b h1 h2 h3 b1 rest hc ih =>
    intro cs h
    rw [decodeUtf8_two b b1 rest h1 h2 h3 hc, Option.map_eq_some'] at h
    obtain ⟨cs0, hd, hcs⟩ := h
    subst hcs
    obtain ⟨hsc, he⟩ := ih cs0 hd
    refine ⟨?_, ?_⟩
    · intro x hx
      rcases List.mem_cons.mp hx with rfl | hx
      · exact ⟨by omega, Or.inl (by omega)⟩
      · exact hsc x hx
    · simp only [encodeUtf8]
      rw [he, encodeUtf8Char, if_neg (by omega), if_pos (by omega)]
      simp only [List.cons_append, List.nil_append, List.cons.injEq]
      exact ⟨by omega, by omega, trivial⟩
  | case6 b h1 h2 h3 b1 rest hc =>
    intro cs h
    rw [decodeUtf8_two_badCont b b1 rest h1 h2 h3 hc] at h
    cases h
  | case7 b h1 h2 h3 h4 =>
    intro cs h
    rw [decodeUtf8_three_eof1 b h1 h2 h3 h4] at h
    cases h
  | case8 b h1 h2 h3 h4 b1 =>
    intro cs h
    rw [decodeUtf8_three_eof2 b b1 h1 h2 h3 h4] at h
    cases h
  | case9 b h1 h2 h3 h4 b1 b2 rest hc hov =>
    intro cs h
    rw [decodeUtf8_three_none b b1 b2 rest h1 h2 h3 h4 (Or.inr (Or.inl hov))] at h
    cases h
  | case10 b h1 h2 h3 h4 b1 b2 rest hc hov hsu =>
    intro cs h
    rw [decodeUtf8_three_none b b1 b2 rest h1 h2 h3 h4 (Or.inr (Or.inr hsu))] at h
    cases h
  | case11 b h1 h2 h3 h4 b1 b2 rest hc hov hsu ih =>
    intro cs h
    rw [decodeUtf8_three b b1 b2 rest h1 h2 h3 h4 hc hov hsu,
      Option.map_eq_some'] at h
    obtain ⟨cs0, hd, hcs⟩ := h
    subst hcs
    obtain ⟨hsc, he⟩ := ih cs0 hd
    refine ⟨?_, ?_⟩
    · intro x hx
      rcases List.mem_cons.mp hx with rfl | hx
      · exact ⟨by omega, by omega⟩
      · exact hsc x hx
    · simp only [encodeUtf8]
      rw [he, encodeUtf8Char, if_neg (by omega), if_neg (by omega), if_pos (by omega)]
      simp only [List.cons_append, List.nil_append, List.cons.injEq]
      exact ⟨by omega, by omega, by omega, trivial⟩
  | case12 b h1 h2 h3 h4 b1 b2 rest hc =>
    intro cs h
    rw [decodeUtf8_three_none b b1 b2 rest h1 h2 h3 h4 (Or.inl hc)] at h
    cases h
  | case13 b h1 h2 h3 h4 h5 =>
    intro cs h
    rw [decodeUtf8_four_eof1 b h1 h2 h3 h4 h5] at h
    cases h
  | case14 b h1 h2 h3 h4 h5 b1 =>
    intro cs h
    rw [decodeUtf8_four_eof2 b b1 h1 h2 h3 h4 h5] at h
    cases h
  | case15 b h1 h2 h3 h4 h5 b1 b2 =>
    intro cs h
    rw [decodeUtf8_four_eof3 b b1 b2 h1 h2 h3 h4 h5] at h
    cases h
  | case16 b h1 h2 h3 h4 h5 b1 b2 b3 rest hc hov =>
    intro cs h
    rw [decodeUtf8_four_none b b1 b2 b3 rest h1 h2 h3 h4 h5 (Or.inr (Or.inl hov))] at h
    cases h
  | case17 b h1 h2 h3 h4 h5 b1 b2 b3 rest hc hov hbig =>
    intro cs h
    rw [decodeUtf8_four_none b b1 b2 b3 rest h1 h2 h3 h4 h5 (Or.inr (Or.inr hbig))] at h
    cases h
  | case18 b h1 h2 h3 h4 h5 b1 b2 b3 rest hc hov hbig ih =>
    intro cs h
    rw [decodeUtf8_four b b1 b2 b3 rest h1 h2 h3 h4 h5 hc hov hbig,
      Option.map_eq_some'] at h
    obtain ⟨cs0, hd, hcs⟩ := h
    subst hcs
    obtain ⟨hsc, he⟩ := ih cs0 hd
    refine ⟨?_, ?_⟩
    · intro x hx
      rcases List.mem_cons.mp hx with rfl | hx
      · exact ⟨by omega, by omega⟩
      · exact hsc x hx
    · simp only [encodeUtf8]
      rw [he, encodeUtf8Char, if_neg (by omega), if_neg (by omega), if_neg (by omega)]
      simp only [List.cons_append, List.nil_append, List.cons.injEq]
      exact ⟨by omega, by omega, by omega, by omega, trivial⟩
  | case19 b h1 h2 h3 h4 h5 b1 b2 b3 rest hc =>
    intro cs h
    rw [decodeUtf8_four_none b b1 b2 b3 rest h1 h2 h3 h4 h5 (Or.inl hc)] at h
    cases h
  | case20 b rest h1 h2 h3 h4 h5 =>
    intro cs h
    rw [decodeUtf8_highLead b rest h1 h2 h3 h4 h5] at h
    cases h

theorem decodeUtf16_inv (w : List Nat) : (∀ u ∈ w, u < 0x10000) → ∀ cs,
    decodeUtf16 w = some cs → (∀ c ∈ cs, IsScalar c) ∧ encodeUtf16 cs = w := by
  induction w using decodeUtf16.induct with
  | case1 =>
    intro _ cs h
    obtain rfl := Option.some.inj h
    exact ⟨by simp, rfl⟩
  | case2 u hu v rest hv ih =>
    intro hb cs h
    rw [decodeUtf16_pair u v rest hu hv, Option.map_eq_some'] at h
    obtain ⟨cs0, hd, hcs⟩ := h
    subst hcs
    obtain ⟨hsc, he⟩ := ih (fun x hx => hb x (by simp [hx])) cs0 hd
    simp only [isHighSurrogate, decide_eq_true_eq] at hu
    simp only [isLowSurrogate, decide_eq_true_eq] at hv
    refine ⟨?_, ?_⟩
    · intro x hx
      rcases List.mem_cons.mp hx with h9 | hx
      · rw [h9]
        exact ⟨by omega, by omega⟩
      · exact hsc x hx
    · simp only [encodeUtf16]
      rw [he, encodeUtf16Char, if_neg (by omega)]
      simp only [List.cons_append, List.nil_append, List.cons.injEq]
      exact ⟨by omega, by omega, trivial⟩
  | case3 u hu v rest hv =>
    intro hb cs h
    rw [decodeUtf16_badLow u v rest hu hv] at h
    cases h
  | case4 u hu =>
    intro hb cs h
    rw [decodeUtf16_highEof u hu] at h
    cases h
  | case5 u rest hnh hl =>
    intro hb cs h
    rw [decodeUtf16_loneLow u rest (Bool.eq_false_iff.mpr hnh) hl] at h
    cases h
  | case6 u rest hnh hnl ih =>
    intro hb cs h
    rw [decodeUtf16_bmp u rest (Bool.eq_false_iff.mpr hnh) (Bool.eq_false_iff.mpr hnl),
      Option.map_eq_some'] at h
    obtain ⟨cs0, hd, hcs⟩ := h
    subst hcs
    obtain ⟨hsc, he⟩ := ih (fun x hx => hb x (by simp [hx])) cs0 hd
    simp only [isHighSurrogate, decide_eq_true_eq] at hnh
    simp only [isLowSurrogate, decide_eq_true_eq] at hnl
    have hu : u < 0x10000 := hb u (by simp)
    refine ⟨?_, ?_⟩
    · intro x hx
      rcases List.mem_cons.mp hx with rfl | hx
      · exact ⟨by omega, by omega⟩
      · exact hsc x hx
    · simp only [encodeUtf16]
      rw [he, encodeUtf16Char, if_pos hu, List.singleton_append]

theorem decodeUtf8_encodeUtf8 (cs : List Nat) (h : ∀ c ∈ cs, IsScalar c) :
    decodeUtf8 (encodeUtf8 cs) = some cs := by
  induction cs with
  | nil => rfl
  | cons c cs ih =>
    rw [encodeUtf8, decodeUtf8_encodeUtf8Char c (h c (List.mem_cons_self c cs))]
    rw [ih (fun x hx => h x (List.mem_cons_of_mem c hx))]
    rfl

theorem decodeUtf16_encodeUtf16 (cs : List Nat) (h : ∀ c ∈ cs, IsScalar c) :
    decodeUtf16 (encodeUtf16 cs) = some cs := by
  induction cs with
  | nil => rfl
  | cons c cs ih =>
    rw [encodeUtf16, decodeUtf16_encodeUtf16Char c (h c (List.mem_cons_self c cs))]
    rw [ih (fun x hx => h x (List.mem_cons_of_mem c hx))]
    rfl

/-! Helper lemmas about the strict platform model and the converter
code paths. -/

theorem strict_wcmbSize_some (w u : List Nat) (h : utf16ToUtf8 w = some u) :
    strictPlatform.wcmbSize w = u.length := by
  show (match utf16ToUtf8 w with | some b => b.length | none => 0) = u.length
  rw [h]

theorem strict_wcmbSize_none (w : List Nat) (h : utf16ToUtf8 w = none) :
    strictPlatform.wcmbSize w = 0 := by
  show (match utf16ToUtf8 w with | some b => b.length | none => 0) = 0
  rw [h]

theorem strict_wcmbConv_exact (w u : List Nat) (h : utf16ToUtf8 w = some u) :
    strictPlatform.wcmbConv w u.length = (u.length, u) := by
  show (match utf16ToUtf8 w with
    | some b => if b.length ≤ u.length then (b.length, b) else (0, b.take u.length)
    | none => (0, [])) = (u.length, u)
  rw [h]
  exact if_pos (Nat.le_refl _)

theorem strict_mbwcSize_some (s u : List Nat) (h : utf8ToUtf16 s = some u) :
    strictPlatform.mbwcSize s = u.length := by
  show (match utf8ToUtf16 s with | some b => b.length | none => 0) = u.length
  rw [h]

theorem strict_mbwcSize_none (s : List Nat) (h : utf8ToUtf16 s = none) :
    strictPlatform.mbwcSize s = 0 := by
  show (match utf8ToUtf16 s with | some b => b.length | none => 0) = 0
  rw [h]

theorem strict_mbwcConv_exact (s u : List Nat) (h : utf8ToUtf16 s = some u) :
    strictPlatform.mbwcConv s u.length = (u.length, u) := by
  show (match utf8ToUtf16 s with
    | some b => if b.length ≤ u.length then (b.length, b) else (0, b.take u.length)
    | none => (0, [])) = (u.length, u)
  rw [h]
  exact if_pos (Nat.le_refl _)

theorem encodeUtf16_cons_ne_nil (c : Nat) (cs : List Nat) :
    encodeUtf16 (c :: cs) ≠ [] := by
  simp only [encodeUtf16]
  intro h
  rcases List.append_eq_nil.mp h with ⟨h1, _⟩
  unfold encodeUtf16Char at h1
  split_ifs at h1

theorem encodeUtf8_cons_ne_nil (c : Nat) (cs : List Nat) :
    encodeUtf8 (c :: cs) ≠ [] := by
  simp only [encodeUtf8]
  intro h
  rcases List.append_eq_nil.mp h with ⟨h1, _⟩
  unfold encodeUtf8Char at h1
  split_ifs at h1

theorem decodeUtf16_cons_some (a : Nat) (t cs : List Nat)
    (h : decodeUtf16 (a :: t) = some cs) : cs ≠ [] := by
  by_cases hh : isHighSurrogate a = true
  · cases t with
    | nil =>
      rw [decodeUtf16_highEof a hh] at h
      cases h
    | cons v t2 =>
      by_cases hl : isLowSurrogate v = true
      · rw [decodeUtf16_pair a v t2 hh hl, Option.map_eq_some'] at h
        obtain ⟨cs0, _, hcs⟩ := h
        rw [← hcs]
        simp
      · rw [decodeUtf16_badLow a v t2 hh hl] at h
        cases h
  · by_cases hl : isLowSurrogate a = true
    · rw [decodeUtf16_loneLow a t (Bool.eq_false_iff.mpr hh) hl] at h
      cases h
    · rw [decodeUtf16_bmp a t (Bool.eq_false_iff.mpr hh) (Bool.eq_false_iff.mpr hl),
        Option.map_eq_some'] at h
      obtain ⟨cs0, _, hcs⟩ := h
      rw [← hcs]
      simp

theorem utf8ToUtf16_some_ne_nil (s u : List Nat) (hs : s ≠ [])
    (h : utf8ToUtf16 s = some u) : u ≠ [] := by
  unfold utf8ToUtf16 at h
  rw [Option.map_eq_some'] at h
  obtain ⟨cs, hd, hu⟩ := h
  obtain ⟨_, he⟩ := decodeUtf8_inv s cs hd
  cases cs with
  | nil =>
    simp only [encodeUtf8] at he
    exact absurd he.symm hs
  | cons c cs2 =>
    rw [← hu]
    exact encodeUtf16_cons_ne_nil c cs2

theorem utf16ToUtf8_some_ne_nil (w u : List Nat) (hw : w ≠ [])
    (h : utf16ToUtf8 w = some u) : u ≠ [] := by
  obtain ⟨a, t, rfl⟩ : ∃ a t, w = a :: t := by
    cases w with
    | nil => exact absurd rfl hw
    | cons a t => exact ⟨a, t, rfl⟩
  unfold utf16ToUtf8 at h
  rw [Option.map_eq_some'] at h
  obtain ⟨cs, hd, hu⟩ := h
  cases cs with
  | nil => exact absurd rfl (decodeUtf16_cons_some a t [] hd)
  | cons c cs2 =>
    rw [← hu]
    exact encodeUtf8_cons_ne_nil c cs2

theorem toUtf8_ok (w u : List Nat) (hw : w ≠ []) (hu : u ≠ [])
    (h : utf16ToUtf8 w = some u) : ToUtf8 w = (.ok u, 2) := by
  obtain ⟨a, t, rfl⟩ : ∃ a t, w = a :: t := by
    cases w with
    | nil => exact absurd rfl hw
    | cons a t => exact ⟨a, t, rfl⟩
  have hlen : u.length ≠ 0 := fun h0 => hu (List.length_eq_zero.mp h0)
  simp only [ToUtf8, ToUtf8Gen, List.isEmpty_cons, Bool.false_eq_true, if_false]
  rw [strict_wcmbSize_some _ _ h, if_neg hlen, strict_wcmbConv_exact _ _ h]
  dsimp only
  rw [if_neg hlen, fillBuffer_exact]

theorem toUtf8_err (w : List Nat) (hw : w ≠ []) (h : utf16ToUtf8 w = none) :
    ToUtf8 w
      = (.error (.UnicodeConversionException ERROR_NO_UNICODE_TRANSLATION
          .FromUtf16ToUtf8 msgSize8), 1) := by
  obtain ⟨a, t, rfl⟩ : ∃ a t, w = a :: t := by
    cases w with
    | nil => exact absurd rfl hw
    | cons a t => exact ⟨a, t, rfl⟩
  simp only [ToUtf8, ToUtf8Gen, List.isEmpty_cons, Bool.false_eq_true, if_false]
  rw [strict_wcmbSize_none _ h, if_pos rfl]
  rfl

theorem safeSizeToInt_ok (n : Nat) (h : n ≤ kIntMax) : SafeSizeToInt n = .ok n := by
  unfold SafeSizeToInt
  rw [if_neg (by omega)]

theorem safeSizeToInt_overflow (n : Nat) (h : n > kIntMax) :
    SafeSizeToInt n = .error (.OverflowError msgOverflow) := by
  unfold SafeSizeToInt
  rw [if_pos h]

theorem toUtf16_overflow (s : List Nat) (h : s.length > kIntMax) :
    ToUtf16 s = (.error (.OverflowError msgOverflow), 0) := by
  obtain ⟨a, t, rfl⟩ : ∃ a t, s = a :: t := by
    cases s with
    | nil => simp [kIntMax] at h
    | cons a t => exact ⟨a, t, rfl⟩
  simp only [ToUtf16, ToUtf16Gen, List.isEmpty_cons, Bool.false_eq_true, if_false]
  rw [safeSizeToInt_overflow _ h]

theorem toUtf16_err (s : List Nat) (hs : s ≠ []) (hlen : s.length ≤ kIntMax)
    (h : utf8ToUtf16 s = none) :
    ToUtf16 s
      = (.error (.UnicodeConversionException ERROR_NO_UNICODE_TRANSLATION
          .FromUtf8ToUtf16 msgSize16), 1) := by
  obtain ⟨a, t, rfl⟩ : ∃ a t, s = a :: t := by
    cases s with
    | nil => exact absurd rfl hs
    | cons a t => exact ⟨a, t, rfl⟩
  simp only [ToUtf16, ToUtf16Gen, List.isEmpty_cons, Bool.false_eq_true, if_false]
  rw [safeSizeToInt_ok _ hlen]
  dsimp only
  rw [strict_mbwcSize_none _ h, if_pos rfl]
  rfl

theorem toUtf16_ok (s u : List Nat) (hs : s ≠ []) (hlen : s.length ≤ kIntMax)
    (hu : u ≠ []) (h : utf8ToUtf16 s = some u) : ToUtf16 s = (.ok u, 2) := by
  obtain ⟨a, t, rfl⟩ : ∃ a t, s = a :: t := by
    cases s with
    | nil => exact absurd rfl hs
    | cons a t => exact ⟨a, t, rfl⟩
  have hulen : u.length ≠ 0 := fun h0 => hu (List.length_eq_zero.mp h0)
  simp only [ToUtf16, ToUtf16Gen, List.isEmpty_cons, Bool.false_eq_true, if_false]
  rw [safeSizeToInt_ok _ hlen]
  dsimp only
  rw [strict_mbwcSize_some _ _ h, if_neg hulen, strict_mbwcConv_exact _ _ h]
  dsimp only
  rw [if_neg hulen, fillBuffer_exact]

/-! Helper lemmas for the malformed-input and overflow scenarios. -/

theorem unpaired_decode_none (w : List Nat) :
    hasUnpairedHighSurrogate w → decodeUtf16 w = none := by
  induction w using decodeUtf16.induct with
  | case1 =>
    intro h
    obtain ⟨i, hi, _, _⟩ := h
    simp at hi
  | case2 u hu v rest hv ih =>
    intro h
    obtain ⟨i, hi, hhigh, hnext⟩ := h
    rw [decodeUtf16_pair u v rest hu hv]
    rcases i with _ | i
    · exfalso
      rcases hnext with hlen | hlow
      · simp only [List.length_cons] at hlen
        omega
      · simp only [List.getD_cons_succ, List.getD_cons_zero] at hlow
        rw [hv] at hlow
        cases hlow
    · rcases i with _ | k
      · exfalso
        simp only [List.getD_cons_succ, List.getD_cons_zero] at hhigh
        simp only [isHighSurrogate, decide_eq_true_eq] at hhigh
        simp only [isLowSurrogate, decide_eq_true_eq] at hv
        omega
      · rw [ih ?hp]
        · rfl
        case hp =>
          refine ⟨k, ?_, ?_, ?_⟩
          · simp only [List.length_cons] at hi
            omega
          · simpa only [List.getD_cons_succ] using hhigh
          · rcases hnext with hlen | hlow
            · left
              simp only [List.length_cons] at hlen ⊢
              omega
            · right
              simpa only [List.getD_cons_succ] using hlow
  | case3 u hu v rest hv =>
    intro _
    exact decodeUtf16_badLow u v rest hu hv
  | case4 u hu =>
    intro _
    exact decodeUtf16_highEof u hu
  | case5 u rest hnh hl =>
    intro _
    exact decodeUtf16_loneLow u rest (Bool.eq_false_iff.mpr hnh) hl
  | case6 u rest hnh hnl ih =>
    intro h
    obtain ⟨i, hi, hhigh, hnext⟩ := h
    rw [decodeUtf16_bmp u rest (Bool.eq_false_iff.mpr hnh) (Bool.eq_false_iff.mpr hnl)]
    rcases i with _ | k
    · exfalso
      simp only [List.getD_cons_zero] at hhigh
      exact hnh hhigh
    · rw [ih ?hp]
      · rfl
      case hp =>
        refine ⟨k, ?_, ?_, ?_⟩
        · simp only [List.length_cons] at hi
          omega
        · simpa only [List.getD_cons_succ] using hhigh
        · rcases hnext with hlen | hlow
          · left
            simp only [List.length_cons] at hlen ⊢
            omega
          · right
            simpa only [List.getD_cons_succ] using hlow

theorem decodeUtf8_replicate_a (n : Nat) :
    decodeUtf8 (List.replicate n 97) = some (List.replicate n 97) := by
  induction n with
  | zero => rfl
  | succ n ih =>
    rw [List.replicate_succ, decodeUtf8_ascii _ _ (by omega), ih]
    rfl

theorem decodeUtf8_replicate_80 (n : Nat) (hn : n ≠ 0) :
    decodeUtf8 (List.replicate n 0x80) = none := by
  obtain ⟨m, rfl⟩ : ∃ m, n = m + 1 := ⟨n - 1, by omega⟩
  rw [List.replicate_succ]
  exact decodeUtf8_badLead _ _ (by omega) (by omega)

/-! Claim theorems. -/

/-- C6: on empty input, `ToUtf8` returns an empty UTF-8 sequence and
`ToUtf16` returns an empty UTF-16 sequence; no platform transcoding call
is made (call count 0) and no error is raised. -/
theorem spec_c6_empty_input :
    ToUtf8 [] = (.ok [], 0) ∧ ToUtf16 [] = (.ok [], 0) :=
  ⟨rfl, rfl⟩

/-- C7: the 4-byte UTF-8 input F0 9F 98 80 (U+1F600) converts to exactly
the surrogate pair 0xD83D 0xDE00, and `ToUtf8` applied to that pair
returns exactly the original four bytes. -/
theorem spec_c7_surrogate_pair_scenario :
    ToUtf16 [0xF0, 0x9F, 0x98, 0x80] = (.ok [0xD83D, 0xDE00], 2)
      ∧ ToUtf8 [0xD83D, 0xDE00] = (.ok [0xF0, 0x9F, 0x98, 0x80], 2) :=
  ⟨rfl, rfl⟩

/-- C8: the 5-byte UTF-8 input 63 61 66 C3 A9 ("café") converts to
exactly the UTF-16 code units 0x0063 0x0061 0x0066 0x00E9, and `ToUtf8`
applied to those four code units returns exactly the original 5 bytes. -/
theorem spec_c8_cafe_scenario :
    ToUtf16 [0x63, 0x61, 0x66, 0xC3, 0xA9] = (.ok [0x63, 0x61, 0x66, 0xE9], 2)
      ∧ ToUtf8 [0x63, 0x61, 0x66, 0xE9] = (.ok [0x63, 0x61, 0x66, 0xC3, 0xA9], 2) :=
  ⟨rfl, rfl⟩

/-- C4: a UTF-8 input longer than `INT_MAX` makes `ToUtf16` fail with an
overflow error that is a distinct error kind from the conversion
exception, and the failure happens before any platform transcoding call
(the call count is 0). -/
theorem spec_c4_length_overflow (s : List Nat) (h : s.length > kIntMax) :
    ToUtf16 s = (.error (.OverflowError msgOverflow), 0)
      ∧ ∀ code ct msg,
          ConvError.OverflowError msgOverflow
            ≠ .UnicodeConversionException code ct msg :=
  ⟨toUtf16_overflow s h, fun _ _ _ h0 => ConvError.noConfusion h0⟩

/-- Witness for C4 at a concrete input of length 2^31. -/
theorem spec_c4_length_overflow_witness :
    ToUtf16 (List.replicate 2147483648 97) = (.error (.OverflowError msgOverflow), 0) :=
  (spec_c4_length_overflow (List.replicate 2147483648 97)
    (by rw [List.length_replicate]; norm_num [kIntMax])).1

/-- C2: a UTF-16 input containing an unpaired high surrogate makes
`ToUtf8` fail with a conversion error whose direction is UTF-16 to
UTF-8; no converted buffer is returned. -/
theorem spec_c2_unpaired_high_surrogate (w : List Nat)
    (h : hasUnpairedHighSurrogate w) :
    ∃ code msg, (ToUtf8 w).1
      = .error (.UnicodeConversionException code .FromUtf16ToUtf8 msg) := by
  have hw : w ≠ [] := by
    obtain ⟨i, hi, _, _⟩ := h
    intro h0
    subst h0
    simp at hi
  have hn : utf16ToUtf8 w = none := by
    unfold utf16ToUtf8
    rw [unpaired_decode_none w h]
    rfl
  exact ⟨ERROR_NO_UNICODE_TRANSLATION, msgSize8, by rw [toUtf8_err w hw hn]⟩

/-- Witness for C2 at the lone high surrogate 0xD800. -/
theorem spec_c2_unpaired_high_surrogate_witness :
    ∃ code msg, (ToUtf8 [0xD800]).1
      = .error (.UnicodeConversionException code .FromUtf16ToUtf8 msg) :=
  spec_c2_unpaired_high_surrogate [0xD800]
    ⟨0, by simp, by decide, Or.inl rfl⟩

/-- C3 (amended): an input that is not valid UTF-8, of length at most
`INT_MAX`, makes `ToUtf16` fail with a conversion error whose direction
is UTF-8 to UTF-16; malformed UTF-8 is rejected, never substituted. -/
theorem spec_c3_invalid_utf8 (s : List Nat) (hlen : s.length ≤ kIntMax)
    (h : decodeUtf8 s = none) :
    ∃ code msg, (ToUtf16 s).1
      = .error (.UnicodeConversionException code .FromUtf8ToUtf16 msg) := by
  have hs : s ≠ [] := by
    intro h0
    subst h0
    exact Option.noConfusion h
  have hn : utf8ToUtf16 s = none := by
    unfold utf8ToUtf16
    rw [h]
    rfl
  exact ⟨ERROR_NO_UNICODE_TRANSLATION, msgSize16, by rw [toUtf16_err s hs hlen hn]⟩

/-- Witness for the amended C3 at the lone continuation byte 0x80. -/
theorem spec_c3_invalid_utf8_witness :
    ∃ code msg, (ToUtf16 [0x80]).1
      = .error (.UnicodeConversionException code .FromUtf8ToUtf16 msg) :=
  spec_c3_invalid_utf8 [0x80] (by decide) (by decide)

/-- Counterexample to C3 as stated: an invalid UTF-8 input (2^31 lone
continuation bytes) on which `ToUtf16` fails with the overflow error, not
with a conversion error of direction UTF-8 to UTF-16. -/
theorem spec_c3_counterexample :
    decodeUtf8 (List.replicate 2147483648 0x80) = none
      ∧ ToUtf16 (List.replicate 2147483648 0x80)
          = (.error (.OverflowError msgOverflow), 0)
      ∧ isConversionError (.OverflowError msgOverflow) = false :=
  ⟨decodeUtf8_replicate_80 _ (by norm_num),
   toUtf16_overflow _ (by rw [List.length_replicate]; norm_num [kIntMax]),
   rfl⟩

/-- C9: `ToUtf8` never raises the overflow error: every failure it can
raise is a conversion exception with direction UTF-16 to UTF-8 (there is
no signed-32-bit length check in that direction). -/
theorem spec_c9_no_overflow_in_toUtf8 (w : List Nat) (e : ConvError)
    (h : (ToUtf8 w).1 = .error e) :
    ∃ code msg, e = .UnicodeConversionException code .FromUtf16ToUtf8 msg := by
  by_cases hw : w = []
  · subst hw
    exact Except.noConfusion h
  · rcases h' : utf16ToUtf8 w with _ | u
    · rw [toUtf8_err w hw h'] at h
      dsimp only at h
      exact ⟨ERROR_NO_UNICODE_TRANSLATION, msgSize8, (Except.error.inj h).symm⟩
    · have hu : u ≠ [] := utf16ToUtf8_some_ne_nil w u hw h'
      rw [toUtf8_ok w u hw hu h'] at h
      dsimp only at h
      cases h

/-- Witness for C9: the failure of `ToUtf8` on a lone low surrogate is a
conversion exception with direction UTF-16 to UTF-8. -/
theorem spec_c9_no_overflow_in_toUtf8_witness :
    ∃ code msg,
      ConvError.UnicodeConversionException ERROR_NO_UNICODE_TRANSLATION
          .FromUtf16ToUtf8 msgSize8
        = .UnicodeConversionException code .FromUtf16ToUtf8 msg :=
  spec_c9_no_overflow_in_toUtf8 [0xDC00]
    (.UnicodeConversionException ERROR_NO_UNICODE_TRANSLATION .FromUtf16ToUtf8 msgSize8)
    (by rfl)

/-- C5: whenever a converter returns successfully, the returned buffer is
the full platform conversion of the input and its length is exactly the
count reported by the sizing pre-pass; no partial or truncated buffer is
ever returned. -/
theorem spec_c5_exact_sizing :
    (∀ w out, (ToUtf8 w).1 = .ok out →
      utf16ToUtf8 w = some out ∧ out.length = strictPlatform.wcmbSize w)
    ∧ ∀ s out, (ToUtf16 s).1 = .ok out →
      utf8ToUtf16 s = some out ∧ out.length = strictPlatform.mbwcSize s := by
  constructor
  · intro w out h
    by_cases hw : w = []
    · subst hw
      obtain rfl : ([] : List Nat) = out := Except.ok.inj h
      exact ⟨rfl, rfl⟩
    · rcases h' : utf16ToUtf8 w with _ | u
      · rw [toUtf8_err w hw h'] at h
        dsimp only at h
        cases h
      · have hu : u ≠ [] := utf16ToUtf8_some_ne_nil w u hw h'
        rw [toUtf8_ok w u hw hu h'] at h
        dsimp only at h
        have hout : u = out := Except.ok.inj h
        rw [← hout]
        exact ⟨rfl, (strict_wcmbSize_some w u h').symm⟩
  · intro s out h
    by_cases hs : s = []
    · subst hs
      obtain rfl : ([] : List Nat) = out := Except.ok.inj h
      exact ⟨rfl, rfl⟩
    · by_cases hlen : s.length ≤ kIntMax
      · rcases h' : utf8ToUtf16 s with _ | u
        · rw [toUtf16_err s hs hlen h'] at h
          dsimp only at h
          cases h
        · have hu : u ≠ [] := utf8ToUtf16_some_ne_nil s u hs h'
          rw [toUtf16_ok s u hs hlen hu h'] at h
          dsimp only at h
          have hout : u = out := Except.ok.inj h
          rw [← hout]
          exact ⟨rfl, (strict_mbwcSize_some s u h').symm⟩
      · rw [toUtf16_overflow s (by omega)] at h
        dsimp only at h
        cases h

/-- Witness for C5 on the single byte 0x61 in both directions. -/
theorem spec_c5_exact_sizing_witness :
    (utf16ToUtf8 [0x61] = some [0x61]
      ∧ ([0x61] : List Nat).length = strictPlatform.wcmbSize [0x61])
    ∧ utf8ToUtf16 [0x62] = some [0x62]
      ∧ ([0x62] : List Nat).length = strictPlatform.mbwcSize [0x62] :=
  ⟨spec_c5_exact_sizing.1 [0x61] [0x61] rfl, spec_c5_exact_sizing.2 [0x62] [0x62] rfl⟩

/-- C10: for any platform behaviour, when the sizing call reports a
nonzero count and the conversion call returns any nonzero value, the
converter succeeds with a buffer whose length is the sizing count — the
conversion call's return value is only compared against zero and never
against the sizing count. -/
theorem spec_c10_second_call_zero_check_only :
    (∀ (P : Win32Platform) (w : List Nat), w ≠ [] → P.wcmbSize w ≠ 0 →
      (P.wcmbConv w (P.wcmbSize w)).1 ≠ 0 →
      ∃ out, ToUtf8Gen P w = (.ok out, 2) ∧ out.length = P.wcmbSize w)
    ∧ ∀ (P : Win32Platform) (s : List Nat), s ≠ [] → s.length ≤ kIntMax →
      P.mbwcSize s ≠ 0 → (P.mbwcConv s (P.mbwcSize s)).1 ≠ 0 →
      ∃ out, ToUtf16Gen P s = (.ok out, 2) ∧ out.length = P.mbwcSize s := by
  constructor
  · intro P w hw hsz hconv
    obtain ⟨a, t, rfl⟩ : ∃ a t, w = a :: t := by
      cases w with
      | nil => exact absurd rfl hw
      | cons a t => exact ⟨a, t, rfl⟩
    refine ⟨fillBuffer (P.wcmbConv (a :: t) (P.wcmbSize (a :: t))).2
      (P.wcmbSize (a :: t)) 32, ?_, fillBuffer_length _ _ _⟩
    simp only [ToUtf8Gen, List.isEmpty_cons, Bool.false_eq_true, if_false]
    rw [if_neg hsz, if_neg hconv]
  · intro P s hs hlen hsz hconv
    obtain ⟨a, t, rfl⟩ : ∃ a t, s = a :: t := by
      cases s with
      | nil => exact absurd rfl hs
      | cons a t => exact ⟨a, t, rfl⟩
    refine ⟨fillBuffer (P.mbwcConv (a :: t) (P.mbwcSize (a :: t))).2
      (P.mbwcSize (a :: t)) 0, ?_, fillBuffer_length _ _ _⟩
    simp only [ToUtf16Gen, List.isEmpty_cons, Bool.false_eq_true, if_false]
    rw [safeSizeToInt_ok _ hlen]
    dsimp only
    rw [if_neg hsz, if_neg hconv]

/-- Witness for C10 on a platform whose conversion call returns a count
different from the sizing count and writes fewer units: the returned
buffer still has the sizing count as its length. -/
theorem spec_c10_second_call_zero_check_only_witness :
    (∃ out, ToUtf8Gen mismatchPlatform [7] = (.ok out, 2) ∧ out.length = 5)
      ∧ ∃ out, ToUtf16Gen mismatchPlatform [7] = (.ok out, 2) ∧ out.length = 4 :=
  ⟨spec_c10_second_call_zero_check_only.1 mismatchPlatform [7] (by simp)
      (by decide) (by decide),
   spec_c10_second_call_zero_check_only.2 mismatchPlatform [7] (by simp)
      (by decide) (by decide) (by decide)⟩

/-- C1 (amended): converting a valid UTF-8 sequence of length at most
`INT_MAX` to UTF-16 and back yields exactly the original bytes, and
converting a valid UTF-16 sequence whose UTF-8 size (the sizing-pass
count) is at most `INT_MAX` to UTF-8 and back yields exactly the
original code units. -/
theorem spec_c1_roundtrip :
    (∀ s, isValidUtf8 s → s.length ≤ kIntMax → roundTrip8 s = .ok s)
    ∧ ∀ w, isValidUtf16 w → strictPlatform.wcmbSize w ≤ kIntMax →
      roundTrip16 w = .ok w := by
  constructor
  · intro s hv hlen
    unfold isValidUtf8 at hv
    rw [Option.isSome_iff_exists] at hv
    obtain ⟨cs, hd⟩ := hv
    by_cases hs : s = []
    · subst hs
      rfl
    · obtain ⟨hsc, he⟩ := decodeUtf8_inv s cs hd
      have hu16 : utf8ToUtf16 s = some (encodeUtf16 cs) := by
        unfold utf8ToUtf16
        rw [hd]
        rfl
      have hune : encodeUtf16 cs ≠ [] := utf8ToUtf16_some_ne_nil s _ hs hu16
      have h1 : ToUtf16 s = (.ok (encodeUtf16 cs), 2) :=
        toUtf16_ok s _ hs hlen hune hu16
      have hu8 : utf16ToUtf8 (encodeUtf16 cs) = some s := by
        unfold utf16ToUtf8
        rw [decodeUtf16_encodeUtf16 cs hsc, Option.map_some', he]
      have h2 : ToUtf8 (encodeUtf16 cs) = (.ok s, 2) :=
        toUtf8_ok _ s hune hs hu8
      unfold roundTrip8
      rw [h1]
      dsimp only [Except.bind]
      rw [h2]
  · intro w hv hsz
    obtain ⟨hb, hsome⟩ := hv
    rw [Option.isSome_iff_exists] at hsome
    obtain ⟨cs, hd⟩ := hsome
    by_cases hw : w = []
    · subst hw
      rfl
    · obtain ⟨hsc, he⟩ := decodeUtf16_inv w hb cs hd
      have hu8 : utf16ToUtf8 w = some (encodeUtf8 cs) := by
        unfold utf16ToUtf8
        rw [hd]
        rfl
      have h8ne : encodeUtf8 cs ≠ [] := utf16ToUtf8_some_ne_nil w _ hw hu8
      have h1 : ToUtf8 w = (.ok (encodeUtf8 cs), 2) := toUtf8_ok w _ hw h8ne hu8
      have hlen8 : (encodeUtf8 cs).length ≤ kIntMax := by
        rw [← strict_wcmbSize_some w _ hu8]
        exact hsz
      have hu16 : utf8ToUtf16 (encodeUtf8 cs) = some w := by
        unfold utf8ToUtf16
        rw [decodeUtf8_encodeUtf8 cs hsc, Option.map_some', he]
      have h2 : ToUtf16 (encodeUtf8 cs) = (.ok w, 2) :=
        toUtf16_ok _ w h8ne hlen8 hw hu16
      unfold roundTrip16
      rw [h1]
      dsimp only [Except.bind]
      rw [h2]

/-- Witness for the amended C1: the round trips on the bytes of "café"
and on the surrogate pair for U+1F600. -/
theorem spec_c1_roundtrip_witness :
    roundTrip8 [0x63, 0x61, 0x66, 0xC3, 0xA9] = .ok [0x63, 0x61, 0x66, 0xC3, 0xA9]
      ∧ roundTrip16 [0xD83D, 0xDE00] = .ok [0xD83D, 0xDE00] :=
  ⟨spec_c1_roundtrip.1 _ (by decide) (by decide),
   spec_c1_roundtrip.2 _ (by decide) (by decide)⟩

/-- Counterexample to C1 as stated: a valid UTF-8 sequence of 2^31 ASCII
bytes on which the round trip fails with the overflow error instead of
returning the input. -/
theorem spec_c1_roundtrip_counterexample :
    isValidUtf8 (List.replicate 2147483648 97)
      ∧ roundTrip8 (List.replicate 2147483648 97)
          = .error (.OverflowError msgOverflow) := by
  constructor
  · unfold isValidUtf8
    rw [decodeUtf8_replicate_a]
    rfl
  · unfold roundTrip8
    rw [toUtf16_overflow _ (by rw [List.length_replicate]; norm_num [kIntMax])]
    rfl

end UnicodeConvAtlStd
